import Mathlib

/-!
Verification of the object data-migration core of the `evo-mcp` repository:
the Page Walker (`read_pages_from_api`), the Reference Scanner
(`extract_data_references`), the Transfer Pipeline (`copy_object_data`),
the Snapshot Orchestrator (`evo_create_workspace_snapshot`), and the
lookup precondition checks of `get_object_content` / `get_object_versions`.

Each Python function is shallowly embedded as an executable Lean definition;
stateful loops are embedded with explicit accumulators and fuel, and calls
to external collaborators are embedded as explicitly passed functions, with
event traces recording the collaborator calls that were issued.
-/

namespace EvoMcp

/-! ## Page Walker: `read_pages_from_api`
(src/src/evo_mcp/tools/instance_users_admin_tools.py, lines 36-57)

```python
offset = 0
ret = []
while True:
    page = await func(offset=offset, limit=limit)
    ret.extend(page.items())
    if len(page) == 0 or len(page) < limit:
        break
    if up_to and len(ret) >= up_to:
        break
    offset += limit
return ret
```

`func` is embedded as a pure function from `(offset, limit)` to the list of
items of the returned page.  The `while True` loop is embedded with fuel:
`none` means the fuel ran out before the loop broke (the Python loop is
still running).  Alongside the accumulated items we count the number of
`func` calls issued.  Python's `if up_to` truthiness test is `false` both
for `None` and for `0`, which `upToTruthy` mirrors exactly.
-/

def upToTruthy : Option Nat → Bool
  | none => false
  | some k => k != 0

def readPagesAux (func : Nat → Nat → List α) (limit : Nat) (upTo : Option Nat) :
    Nat → Nat → List α → Nat → Option (List α × Nat)
  | 0, _, _, _ => none
  | fuel + 1, offset, acc, calls =>
    if (func offset limit).length = 0 ∨ (func offset limit).length < limit then
      some (acc ++ func offset limit, calls + 1)
    else if upToTruthy upTo ∧ upTo.getD 0 ≤ (acc ++ func offset limit).length then
      some (acc ++ func offset limit, calls + 1)
    else
      readPagesAux func limit upTo fuel (offset + limit)
        (acc ++ func offset limit) (calls + 1)

/-- The Page Walker: returns the accumulated items and the number of
`fetch_page` calls issued, or `none` if `fuel` iterations were not enough. -/
def read_pages_from_api (func : Nat → Nat → List α) (upTo : Option Nat)
    (limit : Nat) (fuel : Nat) : Option (List α × Nat) :=
  readPagesAux func limit upTo fuel 0 [] 0

/-- A paged view of a backing collection `items`: the page at `offset` with
page size `limit` is `(items.drop offset).take limit`, the standard
offset/limit contract of the listing API (`spec.md` §6, `fetch_page`). -/
def fetchOf (items : List α) (offset limit : Nat) : List α :=
  (items.drop offset).take limit

/-! ## Reference Scanner: `extract_data_references`
(src/src/evo_mcp/utils/evo_data_utils.py, lines 14-30)

```python
def extract_data_references(object_dict: dict) -> list[str]:
    data_values = []
    def recurse(obj):
        if isinstance(obj, dict):
            for key, value in obj.items():
                if key == 'data' and isinstance(value, str):
                    data_values.append(value)
                else:
                    recurse(value)
        elif isinstance(obj, list):
            for item in obj:
                recurse(item)
    recurse(object_dict)
    return data_values
```

The JSON-like input (string-keyed mappings with insertion order, ordered
sequences, scalars) is embedded as `JsonVal`; the shared `data_values`
accumulator, filled in pre-order, is embedded as list concatenation in the
same traversal order. -/

inductive JsonVal where
  | str : String → JsonVal
  | num : Int → JsonVal
  | bool : Bool → JsonVal
  | null : JsonVal
  | arr : List JsonVal → JsonVal
  | obj : List (String × JsonVal) → JsonVal

/-- The Reference Scanner.  A pair whose key is the literal `data` and whose
value is a string emits that string and is not recursed into; every other
pair is recursed into; sequence elements are recursed into in order;
scalars terminate. -/
def extract_data_references : JsonVal → List String
  | .obj [] => []
  | .obj (("data", .str s) :: rest) => s :: extract_data_references (.obj rest)
  | .obj ((_, v) :: rest) =>
      extract_data_references v ++ extract_data_references (.obj rest)
  | .arr [] => []
  | .arr (x :: xs) =>
      extract_data_references x ++ extract_data_references (.arr xs)
  | _ => []

/-- Spec-side characterization data: every key-value pair of every mapping
node of the tree, in pre-order document order, recursing into every value
unconditionally ("the strings found as values of `data` keys, in pre-order
document order"). -/
def allPairs : JsonVal → List (String × JsonVal)
  | .obj [] => []
  | .obj ((k, v) :: rest) => (k, v) :: (allPairs v ++ allPairs (.obj rest))
  | .arr [] => []
  | .arr (x :: xs) => allPairs x ++ allPairs (.arr xs)
  | _ => []

/-- Spec-side selector: a pair contributes a blob reference exactly when its
key is the literal `data` and its value is a string. -/
def dataRef : String × JsonVal → Option String
  | (k, v) =>
      if k = "data" then
        match v with
        | .str s => some s
        | _ => none
      else none

/-! ## Transfer Pipeline: `copy_object_data`
(src/src/evo_mcp/utils/evo_data_utils.py, lines 33-52)

```python
if not data_identifiers:
    return
for download_ctx in downloaded_object.prepare_data_download(data_identifiers):
    upload_ctx, = [s async for s in target_client.prepare_data_upload([download_ctx.name])]
    async with (HTTPSource(...) as src, StorageDestination(...) as dst):
        await ChunkedIOManager().run(src, dst)
        await dst.commit()
```

The run of the pipeline is embedded as the ordered trace of collaborator
calls it issues, paired with its outcome (`Except.error` = the Python
exception that propagates to the caller, aborting the `for` loop). -/

inductive Ev where
  | prepareDownload (names : List String)
  | prepareUpload (names : List String)
  | writeChunk (blob : String) (i : Nat)
  | commit (blob : String)
deriving DecidableEq

/-- Modelled from the spec: `ChunkedIOManager().run(src, dst)` comes from the
external SDK module `evo.common.io`, which is not part of this repository's
source; per §4.3 of the spec it streams the blob from source to destination
in bounded-size chunks, strictly sequentially, and a chunk write may raise.
Blob `name` has `n` chunks; `failAt = some i` with `i < n` means the
destination chunk-write raises at chunk `i`, after chunks `0 .. i-1` were
written; otherwise all `n` chunks are written and the run returns. -/
def runChunked (name : String) (n : Nat) (failAt : Option Nat) :
    List Ev × Except String Unit :=
  match failAt with
  | some i =>
      if i < n then ((List.range i).map (Ev.writeChunk name), Except.error name)
      else ((List.range n).map (Ev.writeChunk name), Except.ok ())
  | none => ((List.range n).map (Ev.writeChunk name), Except.ok ())

/-- One iteration of the `for download_ctx in ...` loop body: prepare the
upload for this blob, stream it chunk by chunk, and commit the destination
only after the stream ran to completion.  If the stream raises, the
exception propagates without the commit being reached.  `env` gives each
blob's chunk count and failure point. -/
def copyOneBlob (env : String → Nat × Option Nat) (name : String) :
    List Ev × Except String Unit :=
  match runChunked name (env name).1 (env name).2 with
  | (evs, Except.ok _) =>
      (Ev.prepareUpload [name] :: (evs ++ [Ev.commit name]), Except.ok ())
  | (evs, Except.error e) => (Ev.prepareUpload [name] :: evs, Except.error e)

/-- The `for` loop over the download contexts (one per data identifier): an
exception raised while copying one blob aborts the loop and propagates. -/
def copyBlobsLoop (env : String → Nat × Option Nat) :
    List String → List Ev × Except String Unit
  | [] => ([], Except.ok ())
  | name :: rest =>
      match (copyOneBlob env name).2 with
      | Except.ok _ =>
          ((copyOneBlob env name).1 ++ (copyBlobsLoop env rest).1,
            (copyBlobsLoop env rest).2)
      | Except.error e => ((copyOneBlob env name).1, Except.error e)

/-- The Transfer Pipeline: `if not data_identifiers: return` short-circuits
before any collaborator call; otherwise one `prepare_data_download` call is
issued and the per-blob loop runs. -/
def copy_object_data (env : String → Nat × Option Nat)
    (data_identifiers : List String) : List Ev × Except String Unit :=
  if data_identifiers.isEmpty then ([], Except.ok ())
  else
    (Ev.prepareDownload data_identifiers :: (copyBlobsLoop env data_identifiers).1,
      (copyBlobsLoop env data_identifiers).2)

/-- Test fixture: blob `b` has 3 chunks and its stream raises at chunk 1;
every other blob has 2 chunks and streams cleanly. -/
def envB : String → Nat × Option Nat :=
  fun s => if s = "b" then (3, some 1) else (2, none)

/-! ## Snapshot Orchestrator: `evo_create_workspace_snapshot`
(src/src/evo_mcp/tools/workspace_tools.py, lines 218-288)

The manifest-assembly core: the enumerated objects (`list_all_objects`),
the per-object `download_object_by_id(...).as_dict()` collaborator (whose
raised exception is the `except Exception` case), the generation timestamp
and the optional snapshot name are explicit parameters. -/

structure ObjMeta where
  id : String
  name : String
  path : String
  schema_id : String
  version_id : String
  created_at : Option String
deriving DecidableEq

structure ObjInfo where
  id : String
  name : String
  path : String
  schema_id : String
  version_id : String
  created_at : Option String
  /-- `none` = the `data_blobs` key is absent from the entry;
  `some l` = the key is present with value `l`. -/
  data_blobs : Option (List String)
deriving DecidableEq

/-- One `obj_info` entry of the snapshot.  The `try/except Exception` around
the per-object download-and-scan is embedded by the `download` collaborator
returning `Except`: on `.error` (the raised exception) the entry records an
empty `data_blobs` list.  When `include_data_blobs` is false the key is
never set. -/
def snapshotEntry (download : String → String → Except String JsonVal)
    (include_data_blobs : Bool) (obj : ObjMeta) : ObjInfo :=
  { id := obj.id, name := obj.name, path := obj.path,
    schema_id := obj.schema_id, version_id := obj.version_id,
    created_at := obj.created_at,
    data_blobs :=
      if include_data_blobs then
        some (match download obj.id obj.version_id with
          | Except.ok d => extract_data_references d
          | Except.error _ => [])
      else none }

structure Snapshot where
  snapshot_name : String
  snapshot_timestamp : String
  workspace_id : String
  workspace_name : String
  workspace_description : String
  object_count : Nat
  objects : List ObjInfo

/-- The Snapshot Orchestrator (the returned `snapshot` mapping; the sibling
`summary` mapping repeats `snapshot_name`/`timestamp`/`workspace_id` and
`len(objects_snapshot)` and carries two fixed note strings).  Python's
`snapshot_name or f"snapshot_{timestamp}"` defaults an empty name. -/
def evo_create_workspace_snapshot (workspace_id : String)
    (workspace_name workspace_description : String)
    (all_objects : List ObjMeta)
    (download : String → String → Except String JsonVal)
    (timestamp snapshot_name : String) (include_data_blobs : Bool) : Snapshot :=
  { snapshot_name :=
      if snapshot_name = "" then "snapshot_" ++ timestamp else snapshot_name,
    snapshot_timestamp := timestamp,
    workspace_id := workspace_id,
    workspace_name := workspace_name,
    workspace_description := workspace_description,
    object_count := (all_objects.map (snapshotEntry download include_data_blobs)).length,
    objects := all_objects.map (snapshotEntry download include_data_blobs) }

/-- Test fixture: a two-object workspace. -/
def objA : ObjMeta :=
  { id := "idA", name := "A", path := "/a", schema_id := "sA",
    version_id := "v1", created_at := some "2026-01-01" }

/-- Test fixture: the second object of the two-object workspace. -/
def objB : ObjMeta :=
  { id := "idB", name := "B", path := "/b", schema_id := "sB",
    version_id := "v7", created_at := none }

/-- Test fixture: object `idA` downloads to a tree with one blob reference;
the download of any other object raises. -/
def downloadAB : String → String → Except String JsonVal :=
  fun id _ =>
    if id = "idA" then Except.ok (JsonVal.obj [("data", JsonVal.str "blob-1")])
    else Except.error "download failed"

/-! ## Lookup preconditions: `get_object_content` / `get_object_versions`
(src/src/evo_mcp/tools/data_tools.py, lines 59-126)

Modelled from the spec: `ensure_initialized` and
`evo_context.get_object_client`, awaited before the id/path check, come from
`evo_mcp.context`, which is not part of this source tree; per the spec's
error taxonomy (§7), malformed input is "rejected before any I/O", so client
initialization/acquisition is modelled as performing no collaborator I/O.
The trace records the object-lookup I/O calls the tool issues. -/

inductive LookupEv where
  | downloadById (id : String) (version : Option String)
  | downloadByPath (path : String) (version : Option String)
  | listVersionsById (id : String)
  | listVersionsByPath (path : String)
deriving DecidableEq

/-- The metadata projection `get_object_content` returns. -/
structure ContentMetadata where
  id : String
  name : String
  path : String
  schema_id : String
  version_id : String
deriving DecidableEq

/-- A downloaded object as the lookup collaborators return it. -/
structure DownloadedObj where
  metadata : ContentMetadata
  as_dict : JsonVal

/-- One entry of the version listing `get_object_versions` returns. -/
structure VersionInfo where
  version_id : String
  created_at : Option String
  created_by : Option String
deriving DecidableEq

/-- The object-lookup collaborators of the SDK object client. -/
structure ObjectClientEnv where
  downloadById : String → Option String → DownloadedObj
  downloadByPath : String → Option String → DownloadedObj
  listVersionsById : String → List VersionInfo
  listVersionsByPath : String → List VersionInfo

/-- `get_object_content`: Python's `if object_id: ... elif object_path: ...
else: raise ValueError(...)`, with non-empty-string truthiness, and
`version=version if version else None`. -/
def get_object_content (env : ObjectClientEnv)
    (object_id object_path version : String) :
    List LookupEv × Except String (ContentMetadata × JsonVal) :=
  if object_id ≠ "" then
    ([LookupEv.downloadById object_id (if version ≠ "" then some version else none)],
      Except.ok
        ((env.downloadById object_id
            (if version ≠ "" then some version else none)).metadata,
          (env.downloadById object_id
            (if version ≠ "" then some version else none)).as_dict))
  else if object_path ≠ "" then
    ([LookupEv.downloadByPath object_path
        (if version ≠ "" then some version else none)],
      Except.ok
        ((env.downloadByPath object_path
            (if version ≠ "" then some version else none)).metadata,
          (env.downloadByPath object_path
            (if version ≠ "" then some version else none)).as_dict))
  else ([], Except.error "Either object_id or object_path must be provided")

/-- `get_object_versions`: same precondition structure over the
version-listing collaborators. -/
def get_object_versions (env : ObjectClientEnv)
    (object_id object_path : String) :
    List LookupEv × Except String (List VersionInfo) :=
  if object_id ≠ "" then
    ([LookupEv.listVersionsById object_id],
      Except.ok (env.listVersionsById object_id))
  else if object_path ≠ "" then
    ([LookupEv.listVersionsByPath object_path],
      Except.ok (env.listVersionsByPath object_path))
  else ([], Except.error "Either object_id or object_path must be provided")

/-- Length of a page served from a backing collection. -/
theorem fetchOf_length (items : List α) (offset limit : Nat) :
    (fetchOf items offset limit).length = min limit (items.length - offset) := by
  simp [fetchOf]

/-- When the backing collection is exhausted within `limit` items past
`offset`, the served page is everything from `offset` on. -/
theorem fetchOf_short (items : List α) (offset limit : Nat)
    (h : items.length - offset ≤ limit) :
    fetchOf items offset limit = items.drop offset := by
  apply List.take_of_length_le
  simpa using h

/-- Unbounded walk (`up_to = None`) over a backing collection: the walker
returns everything from `offset` on, in `(length - offset) / limit + 1`
further calls. -/
theorem readPagesAux_none (items : List α) (limit : Nat) (hlim : 0 < limit) :
    ∀ (fuel offset calls : Nat) (acc : List α),
      (items.length - offset) / limit + 1 ≤ fuel →
      readPagesAux (fetchOf items) limit none fuel offset acc calls
        = some (acc ++ items.drop offset,
                calls + ((items.length - offset) / limit + 1)) := by
  intro fuel
  induction fuel with
  | zero => intro offset calls acc h; exact absurd h (Nat.not_succ_le_zero _)
  | succ m ih =>
    intro offset calls acc h
    by_cases hshort : items.length - offset < limit
    · have hlen : (fetchOf items offset limit).length = items.length - offset := by
        rw [fetchOf_length]; omega
      have hdiv : (items.length - offset) / limit = 0 := Nat.div_eq_of_lt hshort
      rw [readPagesAux, if_pos (by omega), fetchOf_short items offset limit (by omega)]
      rw [hdiv]
    · have hle : limit ≤ items.length - offset := by omega
      have hlen : (fetchOf items offset limit).length = limit := by
        rw [fetchOf_length]; omega
      have hdiv : (items.length - offset) / limit
          = (items.length - offset - limit) / limit + 1 :=
        Nat.div_eq_sub_div hlim hle
      have hsub : items.length - (offset + limit) = items.length - offset - limit := by
        omega
      rw [readPagesAux, if_neg (by omega), if_neg (by simp [upToTruthy])]
      rw [ih (offset + limit) (calls + 1) (acc ++ fetchOf items offset limit)
        (by rw [hsub]; omega)]
      have hdropdrop : items.drop (offset + limit) = (items.drop offset).drop limit := by
        rw [List.drop_drop, Nat.add_comm]
      have happ : acc ++ fetchOf items offset limit ++ items.drop (offset + limit)
          = acc ++ items.drop offset := by
        rw [List.append_assoc, hdropdrop, fetchOf, List.take_append_drop]
      rw [happ, hsub, hdiv]
      refine congrArg some ?_
      refine Prod.ext rfl ?_
      omega

/-- Unbounded walk from the start: all items, `length / limit + 1` calls. -/
theorem read_pages_none (items : List α) (limit fuel : Nat) (hlim : 0 < limit)
    (hfuel : items.length / limit + 1 ≤ fuel) :
    read_pages_from_api (fetchOf items) none limit fuel
      = some (items, items.length / limit + 1) := by
  have := readPagesAux_none items limit hlim fuel 0 0 [] (by simpa using hfuel)
  simpa using this

/-- Bounded walk (`up_to = k`, with `k ≠ 0` so Python's `if up_to` is
truthy) over a backing collection.  The walker keeps fetching whole pages of
`limit` items: it stops at the first page that is short (data exhausted) or
that lets the accumulator reach `k`, and it never truncates.  So it returns
`items.take (limit * ((k - 1) / limit + 1))` — a whole number of pages, the
least multiple of `limit` that is `≥ k`, capped by the data — in
`min ((k - 1) / limit + 1) (items.length / limit + 1)` calls. -/
theorem readPagesAux_upTo (items : List α) (limit k : Nat) (hlim : 0 < limit)
    (hk : 0 < k) :
    ∀ (fuel calls : Nat),
      calls * limit ≤ items.length →
      calls * limit < k →
      (items.length - calls * limit) / limit + 1 ≤ fuel →
      readPagesAux (fetchOf items) limit (some k) fuel (calls * limit)
          (items.take (calls * limit)) calls
        = some (items.take (limit * ((k - 1) / limit + 1)),
                min ((k - 1) / limit + 1) (items.length / limit + 1)) := by
  intro fuel
  induction fuel with
  | zero => intro calls _ _ h; exact absurd h (Nat.not_succ_le_zero _)
  | succ m ih =>
    intro calls hoff hlt h
    have hcq : calls ≤ (k - 1) / limit := by
      rw [Nat.le_div_iff_mul_le hlim]; omega
    by_cases hshort : items.length - calls * limit < limit
    · -- short (or empty) page: the data is exhausted, the walker stops
      have hlen : (fetchOf items (calls * limit) limit).length
          = items.length - calls * limit := by
        rw [fetchOf_length]; omega
      rw [readPagesAux, if_pos (by omega),
        fetchOf_short items (calls * limit) limit (by omega),
        List.take_append_drop]
      have hdivlen : items.length / limit = calls := by
        refine Nat.le_antisymm ?_ ?_
        · rw [← Nat.lt_succ_iff, Nat.div_lt_iff_lt_mul hlim, Nat.succ_mul]; omega
        · rw [Nat.le_div_iff_mul_le hlim]; omega
      have htake : items.take (limit * ((k - 1) / limit + 1)) = items := by
        apply List.take_of_length_le
        have : (calls + 1) * limit ≤ ((k - 1) / limit + 1) * limit :=
          Nat.mul_le_mul_right limit (by omega)
        calc items.length ≤ calls * limit + limit := by omega
          _ = (calls + 1) * limit := by ring
          _ ≤ ((k - 1) / limit + 1) * limit := this
          _ = limit * ((k - 1) / limit + 1) := by ring
      rw [htake, hdivlen]
      refine congrArg some (Prod.ext rfl ?_)
      omega
    · -- full page fetched
      have hle : limit ≤ items.length - calls * limit := by omega
      have hlen : (fetchOf items (calls * limit) limit).length = limit := by
        rw [fetchOf_length]; omega
      have hacc : items.take (calls * limit) ++ fetchOf items (calls * limit) limit
          = items.take (calls * limit + limit) := by
        rw [fetchOf, ← List.take_add]
      have hacclen : (items.take (calls * limit + limit)).length
          = calls * limit + limit := by
        rw [List.length_take]; omega
      have htr : upToTruthy (some k) = true := by
        simp only [upToTruthy, bne_iff_ne, ne_eq]
        omega
      have hlen2 : (items.take (calls * limit) ++
          fetchOf items (calls * limit) limit).length = calls * limit + limit := by
        rw [hacc, hacclen]
      rw [readPagesAux, if_neg (by omega)]
      by_cases hcap : k ≤ calls * limit + limit
      · -- the accumulator has reached `k`: the walker stops, untruncated
        rw [if_pos ⟨htr, by rw [hlen2]; simpa using hcap⟩]
        have hq : (k - 1) / limit = calls := by
          refine Nat.le_antisymm ?_ hcq
          rw [← Nat.lt_succ_iff, Nat.div_lt_iff_lt_mul hlim, Nat.succ_mul]
          omega
        have hdivlen : calls + 1 ≤ items.length / limit := by
          rw [Nat.le_div_iff_mul_le hlim]
          calc (calls + 1) * limit = calls * limit + limit := by ring
            _ ≤ items.length := by omega
        have hmul : limit * (calls + 1) = calls * limit + limit := by ring
        have hmin : min (calls + 1) (items.length / limit + 1) = calls + 1 :=
          min_eq_left (by omega)
        rw [hacc, hq, hmul, hmin]
      · -- the accumulator is still below `k`: advance the offset and loop
        rw [if_neg (fun hand => hcap (by simpa [hlen2] using hand.2))]
        rw [hacc]
        have hstep : calls * limit + limit = (calls + 1) * limit := by ring
        rw [hstep]
        exact hstep ▸ ih (calls + 1) (by omega) (by omega)
          (by
            have hdiv : (items.length - calls * limit) / limit
                = (items.length - calls * limit - limit) / limit + 1 :=
              Nat.div_eq_sub_div hlim hle
            have hsub : items.length - (calls + 1) * limit
                = items.length - calls * limit - limit := by
              rw [← hstep]; omega
            rw [hsub]; omega)

/-- Bounded walk from the start. -/
theorem read_pages_upTo (items : List α) (limit k fuel : Nat) (hlim : 0 < limit)
    (hk : 0 < k) (hfuel : items.length / limit + 1 ≤ fuel) :
    read_pages_from_api (fetchOf items) (some k) limit fuel
      = some (items.take (limit * ((k - 1) / limit + 1)),
              min ((k - 1) / limit + 1) (items.length / limit + 1)) := by
  have := readPagesAux_upTo items limit k hlim hk fuel 0 (by simp) (by simpa using hk)
    (by simpa using hfuel)
  simpa [read_pages_from_api] using this

/-- Every page the walker fetched, other than the one it stopped on, was
non-empty and at least `limit` items long: the walker never issues a further
request after a short or empty page.  The page of call `i` is requested at
offset `i * limit`. -/
theorem readPagesAux_full_pages (func : Nat → Nat → List α) (limit : Nat)
    (upTo : Option Nat) :
    ∀ (fuel offset calls : Nat) (acc ret : List α) (n : Nat),
      readPagesAux func limit upTo fuel offset acc calls = some (ret, n) →
      offset = calls * limit →
      ∀ i, calls ≤ i → i + 1 < n →
        (func (i * limit) limit).length ≠ 0 ∧
          limit ≤ (func (i * limit) limit).length := by
  intro fuel
  induction fuel with
  | zero => intro offset calls acc ret n heq; simp [readPagesAux] at heq
  | succ m ih =>
    intro offset calls acc ret n heq hoff i hi hin
    rw [readPagesAux] at heq
    by_cases h1 : (func offset limit).length = 0 ∨ (func offset limit).length < limit
    · rw [if_pos h1] at heq
      simp only [Option.some.injEq, Prod.mk.injEq] at heq
      obtain ⟨-, hcalls⟩ := heq
      omega
    · rw [if_neg h1] at heq
      by_cases h2 : upToTruthy upTo ∧ upTo.getD 0 ≤ (acc ++ func offset limit).length
      · rw [if_pos h2] at heq
        simp only [Option.some.injEq, Prod.mk.injEq] at heq
        obtain ⟨-, hcalls⟩ := heq
        omega
      · rw [if_neg h2] at heq
        rcases Nat.eq_or_lt_of_le hi with hieq | hilt
        · subst hieq
          rw [← hoff]
          push_neg at h1
          exact ⟨h1.1, by omega⟩
        · exact ih (offset + limit) (calls + 1) (acc ++ func offset limit) ret n
            heq (by rw [hoff]; ring) i hilt hin

end EvoMcp

set_option maxRecDepth 10000

namespace EvoMcp

/-- C1, counterexample: for pages of sizes `[100, 100, 37]` (a backing
collection of 237 items served with `limit = 100`) and `up_to = 150`, the
walker does issue 2 fetch calls but returns 200 items, not the
`min(150, 237) = 150` items the claim asserts: the accumulator is never
truncated to `up_to`. -/
theorem read_pages_upTo_no_truncation_counterexample :
    (read_pages_from_api (fetchOf (List.range 237)) (some 150) 100 5).map
        (fun p => (p.1.length, p.2)) = some (200, 2) ∧
    ¬ (read_pages_from_api (fetchOf (List.range 237)) (some 150) 100 5).map
        (fun p => p.1.length) = some (min 150 237) := by
  decide

/-- C1, amended: for every backing collection and every bound `up_to = k`
with `k ≠ 0` and `limit ≠ 0`, the walker stops at the first page that lets
the accumulator reach or exceed `k` (or at a short page when the data runs
out first), but does not truncate: it returns
`items.take (limit * ((k - 1) / limit + 1))` — whole pages up to the least
multiple of `limit` that is `≥ k`, capped by the data, so at least
`min(k, total_available)` items and possibly up to `limit - 1` more — in
`min ((k - 1) / limit + 1) (items.length / limit + 1)` fetch calls; for
pages of sizes `[100, 100, 37]` with `limit = 100` and `up_to = 150` it
returns exactly 200 items in 2 fetch calls. -/
theorem read_pages_upTo_whole_pages (items : List α) (limit k fuel : Nat)
    (hlim : 0 < limit) (hk : 0 < k)
    (hfuel : items.length / limit + 1 ≤ fuel) :
    read_pages_from_api (fetchOf items) (some k) limit fuel
      = some (items.take (limit * ((k - 1) / limit + 1)),
              min ((k - 1) / limit + 1) (items.length / limit + 1)) :=
  read_pages_upTo items limit k fuel hlim hk hfuel

/-- Witness for `read_pages_upTo_whole_pages`, at the spec's own scenario:
237 backing items, `limit = 100`, `up_to = 150`. -/
theorem read_pages_upTo_whole_pages_witness :
    0 < 100 ∧ 0 < 150 ∧ (List.range 237).length / 100 + 1 ≤ 3 ∧
    read_pages_from_api (fetchOf (List.range 237)) (some 150) 100 3
      = some ((List.range 237).take (100 * ((150 - 1) / 100 + 1)),
              min ((150 - 1) / 100 + 1) ((List.range 237).length / 100 + 1)) :=
  ⟨by decide, by decide, by decide,
    read_pages_upTo_whole_pages (List.range 237) 100 150 3 (by decide) (by decide)
      (by decide)⟩

/-- C5: with `up_to = None`, the walker returns the full in-order
concatenation of all pages of the backing collection, in
`items.length / limit + 1` fetch calls (for 237 items and `limit = 100`:
pages of sizes `[100, 100, 37]`, 237 items returned, 3 fetch calls). -/
theorem read_pages_unbounded_full_concatenation (items : List α)
    (limit fuel : Nat) (hlim : 0 < limit)
    (hfuel : items.length / limit + 1 ≤ fuel) :
    read_pages_from_api (fetchOf items) none limit fuel
      = some (items, items.length / limit + 1) :=
  read_pages_none items limit fuel hlim hfuel

/-- Witness for `read_pages_unbounded_full_concatenation`, at the spec's
scenario: 237 backing items, `limit = 100`, `up_to = None` — 237 items
returned in 3 fetch calls. -/
theorem read_pages_unbounded_full_concatenation_witness :
    0 < 100 ∧ (List.range 237).length / 100 + 1 ≤ 3 ∧
    read_pages_from_api (fetchOf (List.range 237)) none 100 3
      = some (List.range 237, 3) := by
  refine ⟨by decide, by decide, ?_⟩
  have := read_pages_unbounded_full_concatenation (List.range 237) 100 3
    (by decide) (by decide)
  simpa using this

/-- C6: (a) for every `fetch_page` function, once the walker has received a
page that is empty or strictly shorter than `limit`, it never issues a
further page request — equivalently, every fetched page except the one the
walk stopped on (call `i` requests offset `i * limit`) was non-empty and at
least `limit` items long; and (b) a `fetch_page` that immediately returns
zero items yields an empty result after exactly one call. -/
theorem read_pages_stops_after_short_page {α : Type} :
    (∀ (func : Nat → Nat → List α) (upTo : Option Nat) (limit fuel : Nat)
        (ret : List α) (n : Nat),
        read_pages_from_api func upTo limit fuel = some (ret, n) →
        ∀ i, i + 1 < n →
          (func (i * limit) limit).length ≠ 0 ∧
            limit ≤ (func (i * limit) limit).length) ∧
    (∀ (upTo : Option Nat) (limit fuel : Nat), 0 < fuel →
        read_pages_from_api (fun _ _ => ([] : List α)) upTo limit fuel
          = some ([], 1)) := by
  constructor
  · intro func upTo limit fuel ret n heq i hin
    exact readPagesAux_full_pages func limit upTo fuel 0 0 [] ret n heq
      (by simp) i (Nat.zero_le i) hin
  · intro upTo limit fuel hf
    obtain ⟨m, rfl⟩ := Nat.exists_eq_succ_of_ne_zero (Nat.pos_iff_ne_zero.mp hf)
    simp [read_pages_from_api, readPagesAux]

/-- Witness for `read_pages_stops_after_short_page`: a 7-item collection
paged with `limit = 3` (the walk stops on the third call, so the first
fetched page was full), and the immediately-empty `fetch_page`. -/
theorem read_pages_stops_after_short_page_witness :
    ((fetchOf (List.range 7) (0 * 3) 3).length ≠ 0 ∧
        3 ≤ (fetchOf (List.range 7) (0 * 3) 3).length) ∧
    read_pages_from_api (fun _ _ => ([] : List Nat)) none 3 2 = some ([], 1) :=
  ⟨read_pages_stops_after_short_page.1 (fetchOf (List.range 7)) none 3 4
      (List.range 7) 3 (by decide) 0 (by decide),
    read_pages_stops_after_short_page.2 none 3 2 (by decide)⟩

/-- C7: when the backing collection holds exactly `n * limit` items for a
non-zero `n`, the unbounded walk issues exactly `n + 1` fetch calls — `n`
full pages plus one extra fetch, at offset `n * limit`, that returns zero
items before stopping. -/
theorem read_pages_exact_multiple_extra_fetch (items : List α)
    (limit n fuel : Nat) (hlim : 0 < limit) (_hn : 0 < n)
    (hlen : items.length = n * limit) (hfuel : n + 1 ≤ fuel) :
    read_pages_from_api (fetchOf items) none limit fuel
        = some (items, n + 1) ∧
    fetchOf items (n * limit) limit = [] := by
  have hdiv : items.length / limit = n := by
    rw [hlen, Nat.mul_div_cancel _ hlim]
  constructor
  · have := read_pages_none items limit fuel hlim (by omega)
    rwa [hdiv] at this
  · rw [fetchOf, List.drop_of_length_le (by omega), List.take_nil]

/-- Witness for `read_pages_exact_multiple_extra_fetch`: 6 backing items
with `limit = 3` — 2 full pages, then a third, empty fetch. -/
theorem read_pages_exact_multiple_extra_fetch_witness :
    0 < 3 ∧ 0 < 2 ∧ (List.range 6).length = 2 * 3 ∧ 2 + 1 ≤ 3 ∧
    (read_pages_from_api (fetchOf (List.range 6)) none 3 3
        = some (List.range 6, 2 + 1) ∧
      fetchOf (List.range 6) (2 * 3) 3 = []) :=
  ⟨by decide, by decide, by decide, by decide,
    read_pages_exact_multiple_extra_fetch (List.range 6) 3 2 3 (by decide)
      (by decide) (by decide) (by decide)⟩

/-- The Reference Scanner is exactly the pre-order `data`-key selector:
for every tree, the emitted references are the values of the string-valued
`data` pairs among all mapping pairs, in pre-order document order. -/
theorem extract_data_references_eq_filterMap (t : JsonVal) :
    extract_data_references t = (allPairs t).filterMap dataRef := by
  induction t using extract_data_references.induct with
  | case1 => simp [extract_data_references, allPairs]
  | case2 s rest ih =>
    simp [extract_data_references, allPairs, dataRef, ih]
  | case3 k v rest hne ihv ihrest =>
    have hdr : dataRef (k, v) = none := by
      by_cases hk : k = "data"
      · subst hk
        cases v with
        | str s => exact (hne s rfl rfl).elim
        | num n => simp [dataRef]
        | bool b => simp [dataRef]
        | null => simp [dataRef]
        | arr xs => simp [dataRef]
        | obj kvs => simp [dataRef]
      · simp [dataRef, hk]
    simp [extract_data_references, allPairs, List.filterMap_append, hdr, ihv, ihrest]
  | case4 => simp [extract_data_references, allPairs]
  | case5 x xs ihx ihxs =>
    simp [extract_data_references, allPairs, List.filterMap_append, ihx, ihxs]
  | case6 t h1 h2 h3 h4 h5 =>
    cases t with
    | str s => simp [extract_data_references, allPairs]
    | num n => simp [extract_data_references, allPairs]
    | bool b => simp [extract_data_references, allPairs]
    | null => simp [extract_data_references, allPairs]
    | arr xs =>
      cases xs with
      | nil => exact (h4 rfl).elim
      | cons x xs => exact (h5 x xs rfl).elim
    | obj kvs =>
      cases kvs with
      | nil => exact (h1 rfl).elim
      | cons p rest =>
        cases p with
        | mk k v => exact (h3 k v rest rfl).elim

/-- C2: for every tree built from string-keyed mappings, ordered sequences
and scalars, `extract_data_references` returns exactly the strings occurring
as values of mapping pairs whose key is the literal `data` and whose value
is a string, in pre-order document order with duplicates preserved (it
recurses into a `data` pair whose value is not a string, and an emitted
string value is a leaf, so nothing is scanned under it); in particular, on
`{"a": {"data": "blob-1"}, "b": [{"data": "blob-2"}, {"x": 5}]}` it returns
`["blob-1", "blob-2"]`. -/
theorem extract_data_references_spec :
    (∀ t : JsonVal,
      extract_data_references t = (allPairs t).filterMap dataRef) ∧
    extract_data_references (JsonVal.obj
        [("a", JsonVal.obj [("data", JsonVal.str "blob-1")]),
         ("b", JsonVal.arr [JsonVal.obj [("data", JsonVal.str "blob-2")],
                            JsonVal.obj [("x", JsonVal.num 5)]])])
      = ["blob-1", "blob-2"] :=
  ⟨extract_data_references_eq_filterMap, by simp [extract_data_references]⟩

/-- The chunked stream only issues chunk-write calls: a commit event never
originates inside `ChunkedIOManager().run`. -/
theorem commit_not_mem_runChunked (name b : String) (n : Nat) (f : Option Nat) :
    Ev.commit name ∉ (runChunked b n f).1 := by
  unfold runChunked
  cases f with
  | none => simp
  | some i =>
    by_cases h : i < n
    · simp [h]
    · simp [h]

/-- A commit event for `name` in one loop iteration handling blob `b` forces
`name = b` and that `b`'s stream ran to completion. -/
theorem commit_mem_copyOneBlob (env : String → Nat × Option Nat)
    (b name : String) (h : Ev.commit name ∈ (copyOneBlob env b).1) :
    name = b ∧ (runChunked b (env b).1 (env b).2).2 = Except.ok () := by
  unfold copyOneBlob at h
  split at h
  case _ evs u heq =>
    rcases List.mem_cons.mp h with h | h
    · exact Ev.noConfusion h
    rcases List.mem_append.mp h with h | h
    · have hnot := commit_not_mem_runChunked name b (env b).1 (env b).2
      rw [heq] at hnot
      exact (hnot h).elim
    · have h2 := List.mem_singleton.mp h
      cases u
      exact ⟨by injection h2, by rw [heq]⟩
  case _ evs e heq =>
    rcases List.mem_cons.mp h with h | h
    · exact Ev.noConfusion h
    · have hnot := commit_not_mem_runChunked name b (env b).1 (env b).2
      rw [heq] at hnot
      exact (hnot h).elim

/-- A commit event for `name` anywhere in the per-blob loop forces `name`'s
own stream to have run to completion. -/
theorem commit_mem_copyBlobsLoop (env : String → Nat × Option Nat)
    (name : String) :
    ∀ ids : List String, Ev.commit name ∈ (copyBlobsLoop env ids).1 →
      (runChunked name (env name).1 (env name).2).2 = Except.ok () := by
  intro ids
  induction ids with
  | nil => intro h; simp [copyBlobsLoop] at h
  | cons b rest ih =>
    intro h
    unfold copyBlobsLoop at h
    split at h
    · rcases List.mem_append.mp h with h | h
      · obtain ⟨rfl, hok⟩ := commit_mem_copyOneBlob env b name h
        exact hok
      · exact ih h
    · obtain ⟨rfl, hok⟩ := commit_mem_copyOneBlob env b name h
      exact hok

/-- C3: in `copy_object_data`, for every blob whose chunked streaming raises
at some chunk, no commit of that blob ever appears in the pipeline's call
trace: either a blob is copied in full and then committed, or the
destination is left uncommitted. -/
theorem copy_object_data_no_commit_on_stream_failure
    (env : String → Nat × Option Nat) (ids : List String) (name : String)
    (i : Nat) (hfail : (env name).2 = some i) (hlt : i < (env name).1) :
    Ev.commit name ∉ (copy_object_data env ids).1 := by
  intro hmem
  unfold copy_object_data at hmem
  split at hmem
  · simp at hmem
  · simp only [List.mem_cons] at hmem
    rcases hmem with h | h
    · exact Ev.noConfusion h
    · have hok := commit_mem_copyBlobsLoop env name ids h
      rw [hfail] at hok
      simp [runChunked, hlt] at hok

/-- Witness for `copy_object_data_no_commit_on_stream_failure`: blob `b` of
the fixture fails at chunk 1 of 3 while blobs `a` and `c` stream cleanly,
so the run of `copy_object_data` over `["a", "b", "c"]` never commits `b`. -/
theorem copy_object_data_no_commit_on_stream_failure_witness :
    (envB "b").2 = some 1 ∧ 1 < (envB "b").1 ∧
    Ev.commit "b" ∉ (copy_object_data envB ["a", "b", "c"]).1 :=
  ⟨by simp [envB], by simp [envB],
    copy_object_data_no_commit_on_stream_failure envB ["a", "b", "c"] "b" 1
      (by simp [envB]) (by simp [envB])⟩

/-- C9: `copy_object_data` with an empty list of blob identifiers is a
no-op: its collaborator-call trace is empty (no download preparation, no
upload preparation, no chunk write, no commit) and it returns successfully
at once. -/
theorem copy_object_data_empty_noop (env : String → Nat × Option Nat) :
    copy_object_data env [] = ([], Except.ok ()) := rfl

/-- C4: with `include_data_blobs` requested, a snapshot run whose per-object
download-and-scan raises for some enumerated object still completes with an
entry for every enumerated object (same count, same order), and every
object whose download raised carries `data_blobs = []`: the exception is
caught and recorded as an empty list, not propagated. -/
theorem snapshot_blob_scan_failure_localized
    (workspace_id workspace_name workspace_description : String)
    (all_objects : List ObjMeta)
    (download : String → String → Except String JsonVal)
    (timestamp snapshot_name : String) :
    (evo_create_workspace_snapshot workspace_id workspace_name
        workspace_description all_objects download timestamp snapshot_name
        true).objects.length = all_objects.length ∧
    ∀ (i : Nat) (obj : ObjMeta) (e : String),
      all_objects[i]? = some obj →
      download obj.id obj.version_id = Except.error e →
      ((evo_create_workspace_snapshot workspace_id workspace_name
          workspace_description all_objects download timestamp snapshot_name
          true).objects[i]?).map ObjInfo.data_blobs = some (some []) := by
  constructor
  · simp [evo_create_workspace_snapshot]
  · intro i obj e hget hdl
    simp [evo_create_workspace_snapshot, List.getElem?_map, hget,
      snapshotEntry, hdl]

/-- Witness for `snapshot_blob_scan_failure_localized`, at the spec's
scenario: a two-object workspace where the second object's download raises —
the manifest holds both objects and the failing one carries
`data_blobs = []`. -/
theorem snapshot_blob_scan_failure_localized_witness :
    ([objA, objB] : List ObjMeta)[1]? = some objB ∧
    downloadAB objB.id objB.version_id = Except.error "download failed" ∧
    (evo_create_workspace_snapshot "ws" "W" "D" [objA, objB] downloadAB "t0"
        "" true).objects.length = ([objA, objB] : List ObjMeta).length ∧
    ((evo_create_workspace_snapshot "ws" "W" "D" [objA, objB] downloadAB "t0"
        "" true).objects[1]?).map ObjInfo.data_blobs = some (some []) :=
  ⟨by simp, by simp [downloadAB, objB],
    (snapshot_blob_scan_failure_localized "ws" "W" "D" [objA, objB]
      downloadAB "t0" "").1,
    (snapshot_blob_scan_failure_localized "ws" "W" "D" [objA, objB]
      downloadAB "t0" "").2 1 objB "download failed" (by simp)
      (by simp [downloadAB, objB])⟩

/-- C10: in every snapshot, an entry carries the `data_blobs` key iff
`include_data_blobs` was requested (when requested the key is present —
holding the scanned list on success or the empty list on failure — and when
not requested it is absent from every entry), and the returned
`object_count` equals the length of the returned `objects` sequence. -/
theorem snapshot_data_blobs_key_iff
    (workspace_id workspace_name workspace_description : String)
    (all_objects : List ObjMeta)
    (download : String → String → Except String JsonVal)
    (timestamp snapshot_name : String) (include_data_blobs : Bool) :
    (∀ e ∈ (evo_create_workspace_snapshot workspace_id workspace_name
        workspace_description all_objects download timestamp snapshot_name
        include_data_blobs).objects,
      e.data_blobs ≠ none ↔ include_data_blobs = true) ∧
    (evo_create_workspace_snapshot workspace_id workspace_name
        workspace_description all_objects download timestamp snapshot_name
        include_data_blobs).object_count
      = (evo_create_workspace_snapshot workspace_id workspace_name
        workspace_description all_objects download timestamp snapshot_name
        include_data_blobs).objects.length := by
  constructor
  · intro e he
    simp only [evo_create_workspace_snapshot, List.mem_map] at he
    obtain ⟨obj, -, rfl⟩ := he
    cases include_data_blobs <;> simp [snapshotEntry]
  · rfl

/-- Witness for `snapshot_data_blobs_key_iff`: a one-object snapshot without
blob references requested — its single entry has no `data_blobs` key, and
`object_count` matches. -/
theorem snapshot_data_blobs_key_iff_witness :
    ((snapshotEntry downloadAB false objA).data_blobs ≠ none ↔ false = true) ∧
    (evo_create_workspace_snapshot "ws" "W" "D" [objA] downloadAB "t1" "nm"
        false).object_count
      = (evo_create_workspace_snapshot "ws" "W" "D" [objA] downloadAB "t1"
        "nm" false).objects.length :=
  ⟨(snapshot_data_blobs_key_iff "ws" "W" "D" [objA] downloadAB "t1" "nm"
      false).1 (snapshotEntry downloadAB false objA)
      (by simp [evo_create_workspace_snapshot]),
    (snapshot_data_blobs_key_iff "ws" "W" "D" [objA] downloadAB "t1" "nm"
      false).2⟩

/-- C8: a lookup call (`get_object_content` or `get_object_versions`) with
neither an object id nor an object path supplied is rejected with the
precondition-violation `ValueError` and an empty collaborator-I/O trace:
no lookup I/O is issued before (or after) the rejection and nothing is
retried. -/
theorem lookup_missing_id_and_path_rejected (env : ObjectClientEnv)
    (version : String) :
    get_object_content env "" "" version
        = ([], Except.error "Either object_id or object_path must be provided") ∧
    get_object_versions env "" ""
        = ([], Except.error "Either object_id or object_path must be provided") :=
  ⟨rfl, rfl⟩

end EvoMcp
